import Mathlib

/-!
Shallow embedding of `bin/generate-component-table.py`.

Strings are modelled as `List Char` (`Str`), mirroring Python string
operations character by character.  The filesystem seen by `os.walk` is
modelled as a finite rose tree (`DirTree`/`DirForest`); paths handed to
the git subprocess and to `os.path.relpath` are represented relative to
the scanned base directory (`os.path.relpath (os.path.join base rel) base`
is `rel`, so the base-directory prefix is elided).  The git subprocess is
modelled by its observable outcome: `none` when the invocation raises an
exception (tool absent, I/O error), `some out` when it returns with
standard output `out`; a non-zero exit status of git does not raise in
the Python code, it simply yields whatever stdout was produced.
-/

namespace GenerateComponentTable

/-- Python strings, modelled as lists of characters. -/
abbrev Str := List Char

/-- The `SALESFORCE_METADATA_TYPES` dictionary of the script, as the ordered
list of its (extension, metadata type) pairs in insertion order; Python
dictionaries iterate in insertion order, and the classification loop
iterates `SALESFORCE_METADATA_TYPES.items()` in exactly this order. -/
def SALESFORCE_METADATA_TYPES : List (Str × Str) :=
  [ (".cls".data, "ApexClass".data),
    (".cls-meta.xml".data, "ApexClass".data),
    (".trigger".data, "ApexTrigger".data),
    (".trigger-meta.xml".data, "ApexTrigger".data),
    (".component".data, "ApexComponent".data),
    (".component-meta.xml".data, "ApexComponent".data),
    (".page".data, "VisualforcePage".data),
    (".page-meta.xml".data, "VisualforcePage".data),
    (".cmp".data, "AuraComponent".data),
    (".cmp-meta.xml".data, "AuraComponent".data),
    (".evt".data, "AuraEvent".data),
    (".evt-meta.xml".data, "AuraEvent".data),
    (".app".data, "AuraApplication".data),
    (".app-meta.xml".data, "AuraApplication".data),
    (".design".data, "AuraDesign".data),
    (".design-meta.xml".data, "AuraDesign".data),
    (".js-meta.xml".data, "LightningWebComponent".data),
    (".object-meta.xml".data, "CustomObject".data),
    (".field-meta.xml".data, "CustomField".data),
    (".tab-meta.xml".data, "CustomTab".data),
    (".layout-meta.xml".data, "Layout".data),
    (".listView-meta.xml".data, "ListView".data),
    (".webLink-meta.xml".data, "WebLink".data),
    (".fieldSet-meta.xml".data, "FieldSet".data),
    (".profile-meta.xml".data, "Profile".data),
    (".permissionset-meta.xml".data, "PermissionSet".data),
    (".resource-meta.xml".data, "StaticResource".data),
    (".flow-meta.xml".data, "Flow".data),
    (".flowDefinition-meta.xml".data, "FlowDefinition".data),
    (".email-meta.xml".data, "EmailTemplate".data),
    (".report-meta.xml".data, "Report".data),
    (".dashboard-meta.xml".data, "Dashboard".data),
    (".customSite-meta.xml".data, "CustomSite".data),
    (".assignmentRules-meta.xml".data, "AssignmentRules".data),
    (".escalationRules-meta.xml".data, "EscalationRules".data),
    (".remoteSite-meta.xml".data, "RemoteSiteSetting".data),
    (".certificate-meta.xml".data, "Certificate".data),
    (".labels-meta.xml".data, "CustomLabels".data),
    (".recordType-meta.xml".data, "RecordType".data),
    (".compactLayout-meta.xml".data, "CompactLayout".data),
    (".connectedApp-meta.xml".data, "ConnectedApp".data),
    (".translation-meta.xml".data, "Translations".data),
    (".site-meta.xml".data, "SiteDotCom".data),
    (".networkBranding-meta.xml".data, "NetworkBranding".data),
    (".territory2Rule-meta.xml".data, "Territory2Rule".data),
    (".territory2Type-meta.xml".data, "Territory2Type".data),
    (".customPermission-meta.xml".data, "CustomPermission".data),
    (".quickAction-meta.xml".data, "QuickAction".data) ]

/-- The characters removed by Python `str.strip()` with no argument
(ASCII whitespace: space, tab, newline, carriage return, vertical tab,
form feed). -/
def pyWhitespace : List Char := [' ', '\t', '\n', '\r', '\x0b', '\x0c']

/-- Python `s.strip()`: remove leading and trailing whitespace. -/
def pyStrip (s : Str) : Str :=
  ((s.dropWhile (fun c => pyWhitespace.contains c)).reverse.dropWhile
    (fun c => pyWhitespace.contains c)).reverse

/-- Model of `detect_file_state`, as a function of the outcome of the git
subprocess call for the file in question: `none` when the call raised an
exception (caught by the `except` clause, falling through to the final
`return "Unmodified"`), `some out` when `subprocess.run` returned with
standard output `out`.  The status code is `out.strip()[:2]` and the two
`startswith` tests follow the source. -/
def detect_file_state (gitStdout : Option Str) : Str :=
  match gitStdout with
  | none => "Unmodified".data
  | some out =>
    let status_code := (pyStrip out).take 2
    if "A".data.isPrefixOf status_code then "Created".data
    else if "M".data.isPrefixOf status_code then "Changed".data
    else "Unmodified".data

/-- The classification loop of `categorize_files`: the first entry of
`SALESFORCE_METADATA_TYPES` (in iteration order) whose extension is a
suffix of the filename, or `none` when no entry matches — the `for`
loop with `break` returns the first match. -/
def lookupType (file : Str) : Option (Str × Str) :=
  SALESFORCE_METADATA_TYPES.find? (fun p => p.1.isSuffixOf file)

/-- The (stripped name, metadata type) pair `categorize_files` computes for
one filename: when an extension matched, the name is
`file[:-len(matched_ext)]` (that is, `take (length file - length ext)`)
and the type is the mapped one; otherwise the name is the full filename
and the type is the empty string. -/
def classifyFile (file : Str) : Str × Str :=
  match lookupType file with
  | some (ext, sf_type) => (file.take (file.length - ext.length), sf_type)
  | none => (file, [])

/-- Model of `os.path.join` restricted to the shapes produced by the walk: joining
the empty relative root with a name yields the name itself, otherwise a
slash is inserted. -/
def pathJoin (a b : Str) : Str :=
  if a = [] then b else a ++ '/' :: b

mutual
/-- A directory in the tree scanned by `os.walk`: its regular files and
its named subdirectories, each in listing order. -/
inductive DirTree : Type where
  | mk : List Str → DirForest → DirTree
/-- A list of named subdirectories. -/
inductive DirForest : Type where
  | nil : DirForest
  | cons : Str → DirTree → DirForest → DirForest
end

mutual
/-- Model of `os.walk` over the modelled tree: the pairs `(root, files)` it yields,
with `root` expressed relative to the base directory (the base directory
itself is the empty relative path).  Top-down order, as `os.walk`
defaults to: a directory is yielded before its subdirectories. -/
def osWalk : DirTree → Str → List (Str × List Str)
  | DirTree.mk files subdirs, rel => (rel, files) :: osWalkF subdirs rel
/-- Model of `os.walk` continued over a list of named subdirectories. -/
def osWalkF : DirForest → Str → List (Str × List Str)
  | DirForest.nil, _ => []
  | DirForest.cons name sub rest, rel =>
      osWalk sub (pathJoin rel name) ++ osWalkF rest rel
end

mutual
/-- The number of regular files in a tree. -/
def countFiles : DirTree → Nat
  | DirTree.mk files subdirs => files.length + countFilesF subdirs
/-- The number of regular files in a forest. -/
def countFilesF : DirForest → Nat
  | DirForest.nil => 0
  | DirForest.cons _ sub rest => countFiles sub + countFilesF rest
end

/-- Model of `categorize_files`: walk the tree and, for every file of every
directory in walk order, emit the tuple
`(state, stripped_name, metadata_type, relative_path)`.
`gitStdout` maps the relative path of a file to the outcome of the git
subprocess invocation for it (see `detect_file_state`);
`os.path.relpath(os.path.join(base_dir, rel), base_dir)` is `rel`, so the
relative path recorded is `pathJoin root file`. -/
def categorize_files (tree : DirTree) (gitStdout : Str → Option Str) :
    List (Str × Str × Str × Str) :=
  (osWalk tree []).flatMap (fun rootFiles =>
    rootFiles.2.map (fun file =>
      let c := classifyFile file
      let relative_path := pathJoin rootFiles.1 file
      let state := detect_file_state (gitStdout relative_path)
      (state, c.1, c.2, relative_path)))

/-- The header row appended first by `generate_markdown_table`. -/
def headerRow : Str :=
  "| State       | Name         | Type        | Path                     |".data

/-- The separator row appended second by `generate_markdown_table`. -/
def separatorRow : Str :=
  "|-------------|--------------|-------------|--------------------------|".data

/-- The f-string `f"| \x7brow[0]\x7d | \x7brow[1]\x7d | \x7brow[2]\x7d | \x7brow[3]\x7d |"`:
the four tuple fields interpolated verbatim between pipe separators. -/
def mkRow (row : Str × Str × Str × Str) : Str :=
  "| ".data ++ row.1 ++ " | ".data ++ row.2.1 ++ " | ".data ++ row.2.2.1 ++
    " | ".data ++ row.2.2.2 ++ " |".data

/-- Python `sep.join(parts)`: concatenate `parts` with `sep` between
consecutive elements, nothing before the first or after the last. -/
def pyJoin (sep : Str) : List Str → Str
  | [] => []
  | [x] => x
  | x :: xs => x ++ sep ++ pyJoin sep xs

/-- Model of `generate_markdown_table`: start from the header and separator rows,
append one formatted row per file tuple in order, and join the rows with
newlines. -/
def generate_markdown_table (file_data : List (Str × Str × Str × Str)) : Str :=
  let markdown_table : List Str := [headerRow, separatorRow]
  let markdown_table :=
    file_data.foldl (fun acc row => acc ++ [mkRow row]) markdown_table
  pyJoin ['\n'] markdown_table

/-- Python `print(s)`: the bytes written to standard output, `s` plus a
newline. -/
def printLine (s : Str) : Str := s ++ ['\n']

/-- The two lines printed by `print_usage`. -/
def usageText : List Str :=
  [ "Usage: python generate-component-table.py <directory>".data,
    "Scans a Salesforce source directory and generates a Markdown table.".data ]

/-- The bytes `print_usage` writes to standard output. -/
def print_usage : Str := (usageText.map printLine).flatten

/-- The f-string `f"Error: Directory \x27\x7bbase_dir\x7d\x27 not found."`. -/
def errorMessage (base_dir : Str) : Str :=
  "Error: Directory \x27".data ++ base_dir ++ "\x27 not found.".data

/-- The observable outcome of one program invocation: the process exit
code and everything written to standard output. -/
structure ProgResult where
  exitCode : Nat
  stdout : Str
deriving DecidableEq

/-- Model of `main`, as a function of `sys.argv` (element 0 is the script name) and
of the ambient filesystem: `isdir` models `os.path.isdir`, `dirTree` gives
the tree that `os.walk` enumerates under a directory argument, and
`gitStdout` models the git subprocess (see `categorize_files`).
`len(sys.argv) != 2` prints the usage text and exits 1; a non-directory
argument prints the error message and exits 1; otherwise the Markdown
table is printed and the process exits 0. -/
def main (argv : List Str) (isdir : Str → Bool) (dirTree : Str → DirTree)
    (gitStdout : Str → Option Str) : ProgResult :=
  match argv with
  | [_, base_dir] =>
    if isdir base_dir then
      { exitCode := 0,
        stdout := printLine
          (generate_markdown_table (categorize_files (dirTree base_dir) gitStdout)) }
    else
      { exitCode := 1, stdout := printLine (errorMessage base_dir) }
  | _ => { exitCode := 1, stdout := print_usage }

/-! ## Helper lemmas -/

/-- Dropping the length of a suffix from the end of a list and appending the
suffix again restores the list. -/
theorem take_append_of_suffix {ext file : Str} (h : ext <:+ file) :
    file.take (file.length - ext.length) ++ ext = file := by
  obtain ⟨t, rfl⟩ := h
  have hl : (t ++ ext).length - ext.length = t.length := by
    simp
  rw [hl, List.take_left]

/-- Every file of every directory yielded by the walk contributes its record
to the output of `categorize_files`. -/
theorem mem_categorize_of_walk {tree : DirTree} {g : Str → Option Str}
    {root : Str} {files : List Str} {file : Str}
    (hw : (root, files) ∈ osWalk tree []) (hf : file ∈ files) :
    (detect_file_state (g (pathJoin root file)), (classifyFile file).1,
      (classifyFile file).2, pathJoin root file) ∈ categorize_files tree g := by
  unfold categorize_files
  exact List.mem_flatMap.mpr ⟨(root, files), hw, List.mem_map.mpr ⟨file, hf, rfl⟩⟩

/-- A one-character list is a prefix of a list exactly when that list starts
with the character. -/
theorem singleton_isPrefixOf_iff (c : Char) (l : Str) :
    ([c].isPrefixOf l) = true ↔ l.head? = some c := by
  cases l with
  | nil => simp [List.isPrefixOf]
  | cons a as =>
    simp only [List.isPrefixOf, List.head?, Option.some.injEq,
      Bool.and_eq_true, beq_iff_eq]
    constructor
    · intro h
      exact h.1.symm
    · intro h
      exact ⟨h.symm, trivial⟩

/-- Appending one formatted row at a time, as the rendering loop does, is
appending the mapped list. -/
theorem foldl_append_rows (rs : List (Str × Str × Str × Str)) (init : List Str) :
    rs.foldl (fun acc row => acc ++ [mkRow row]) init = init ++ rs.map mkRow := by
  induction rs generalizing init with
  | nil => simp
  | cons r rs ih => simp [ih]

/-! ## Claims -/

/-- C1: for every filename (of any file of any directory the walk yields)
ending in a known suffix of the static table, `categorize_files` assigns the
category mapped to the first table entry (in iteration order) whose suffix is
a suffix of the filename, and the display name is the filename with that
matched suffix removed from the end: appending the suffix back restores the
filename. -/
theorem categorize_matched (tree : DirTree) (g : Str → Option Str)
    (root file ext cat : Str) (files : List Str)
    (hw : (root, files) ∈ osWalk tree []) (hf : file ∈ files)
    (hfind : lookupType file = some (ext, cat)) :
    (classifyFile file).2 = cat ∧
    (classifyFile file).1 ++ ext = file ∧
    (detect_file_state (g (pathJoin root file)), (classifyFile file).1, cat,
      pathJoin root file) ∈ categorize_files tree g := by
  have hfind' : SALESFORCE_METADATA_TYPES.find?
      (fun p => p.1.isSuffixOf file) = some (ext, cat) := hfind
  have hsuf : ext.isSuffixOf file = true := by
    have h2 := List.find?_some hfind'
    exact h2
  have hcl : classifyFile file = (file.take (file.length - ext.length), cat) := by
    unfold classifyFile
    rw [hfind]
  refine ⟨by rw [hcl], ?_, ?_⟩
  · rw [hcl]
    exact take_append_of_suffix (List.isSuffixOf_iff_suffix.mp hsuf)
  · have hm := mem_categorize_of_walk (g := g) hw hf
    rw [hcl] at hm
    rw [hcl]
    exact hm

/-- Witness for C1 on the concrete file `Foo.cls`. -/
theorem categorize_matched_witness :
    (classifyFile "Foo.cls".data).2 = "ApexClass".data ∧
    (classifyFile "Foo.cls".data).1 ++ ".cls".data = "Foo.cls".data ∧
    (detect_file_state ((fun _ => none : Str → Option Str)
        (pathJoin [] "Foo.cls".data)),
      (classifyFile "Foo.cls".data).1, "ApexClass".data,
      pathJoin [] "Foo.cls".data)
      ∈ categorize_files (DirTree.mk ["Foo.cls".data] DirForest.nil)
          (fun _ => none) :=
  categorize_matched (DirTree.mk ["Foo.cls".data] DirForest.nil) (fun _ => none)
    [] "Foo.cls".data ".cls".data "ApexClass".data ["Foo.cls".data]
    (by decide) (by decide) (by rfl)

/-- C3: for every filename (of any file of any directory the walk yields)
matching no known suffix of the table, `categorize_files` includes the file
in the result, with an empty category string and the full filename as
display name. -/
theorem categorize_unmatched (tree : DirTree) (g : Str → Option Str)
    (root file : Str) (files : List Str)
    (hw : (root, files) ∈ osWalk tree []) (hf : file ∈ files)
    (hnone : lookupType file = none) :
    (detect_file_state (g (pathJoin root file)), file, ([] : Str),
      pathJoin root file) ∈ categorize_files tree g := by
  have hcl : classifyFile file = (file, ([] : Str)) := by
    unfold classifyFile
    rw [hnone]
  have hm := mem_categorize_of_walk (g := g) hw hf
  rw [hcl] at hm
  exact hm

/-- Witness for C3 on the concrete file `readme.txt`, scenario of the spec:
one record with empty category and display name `readme.txt`. -/
theorem categorize_unmatched_witness :
    (detect_file_state ((fun _ => none : Str → Option Str)
        (pathJoin [] "readme.txt".data)),
      "readme.txt".data, ([] : Str), pathJoin [] "readme.txt".data)
      ∈ categorize_files (DirTree.mk ["readme.txt".data] DirForest.nil)
          (fun _ => none) :=
  categorize_unmatched (DirTree.mk ["readme.txt".data] DirForest.nil)
    (fun _ => none) [] "readme.txt".data ["readme.txt".data]
    (by decide) (by decide) (by rfl)

/-- C9: for every filename matched by some table entry, the display name
concatenated with the matched suffix equals the original filename, and the
display name is empty exactly when the filename equals the matched suffix. -/
theorem classify_roundtrip (file ext cat : Str)
    (hfind : lookupType file = some (ext, cat)) :
    (classifyFile file).1 ++ ext = file ∧
    ((classifyFile file).1 = [] ↔ file = ext) := by
  have hfind' : SALESFORCE_METADATA_TYPES.find?
      (fun p => p.1.isSuffixOf file) = some (ext, cat) := hfind
  have hsuf : ext.isSuffixOf file = true := by
    have h2 := List.find?_some hfind'
    exact h2
  have hcl : classifyFile file = (file.take (file.length - ext.length), cat) := by
    unfold classifyFile
    rw [hfind]
  have hrt : (classifyFile file).1 ++ ext = file := by
    rw [hcl]
    exact take_append_of_suffix (List.isSuffixOf_iff_suffix.mp hsuf)
  refine ⟨hrt, ?_, ?_⟩
  · intro h0
    rw [← hrt, h0]
    rfl
  · intro h0
    have h1 : (classifyFile file).1 ++ ext = ext := by rw [hrt, h0]
    have h2 := congrArg List.length h1
    simp only [List.length_append] at h2
    have h3 : (classifyFile file).1.length = 0 := by omega
    exact List.eq_nil_of_length_eq_zero h3

/-- Witness for C9 on the filename `.cls`, itself a table suffix: the
display name is empty. -/
theorem classify_roundtrip_witness :
    (classifyFile ".cls".data).1 ++ ".cls".data = ".cls".data ∧
    ((classifyFile ".cls".data).1 = [] ↔ ".cls".data = ".cls".data) :=
  classify_roundtrip ".cls".data ".cls".data "ApexClass".data (by rfl)

/-- C2: for every outcome of the git collaborator call — `none` for a raised
exception (tool absent, not a repository raising, I/O error), `some out` for
a completed call with standard output `out` (which covers non-zero exit
statuses, since the call does not check the exit code) — `detect_file_state`
returns `Created` when the status code (the stripped output truncated to two
characters) begins with `A`, `Changed` when it begins with `M`, and
`Unmodified` in every other case, including every failure; being a total
function into these three strings, it never raises a fatal error. -/
theorem detect_file_state_spec (g : Option Str) :
    detect_file_state g =
      match g with
      | none => "Unmodified".data
      | some out =>
        if ((pyStrip out).take 2).head? = some 'A' then "Created".data
        else if ((pyStrip out).take 2).head? = some 'M' then "Changed".data
        else "Unmodified".data := by
  cases g with
  | none => rfl
  | some out =>
    dsimp only [detect_file_state]
    by_cases hA : ((pyStrip out).take 2).head? = some 'A'
    · rw [if_pos ((singleton_isPrefixOf_iff 'A' _).mpr hA), if_pos hA]
    · have hA' : ¬ ("A".data.isPrefixOf ((pyStrip out).take 2) = true) :=
        fun h => hA ((singleton_isPrefixOf_iff 'A' _).mp h)
      by_cases hM : ((pyStrip out).take 2).head? = some 'M'
      · rw [if_neg hA', if_pos ((singleton_isPrefixOf_iff 'M' _).mpr hM),
          if_neg hA, if_pos hM]
      · have hM' : ¬ ("M".data.isPrefixOf ((pyStrip out).take 2) = true) :=
          fun h => hM ((singleton_isPrefixOf_iff 'M' _).mp h)
        rw [if_neg hA', if_neg hM', if_neg hA, if_neg hM]

/-- C8: for every outcome of the git collaborator call, `detect_file_state`
returns exactly one of the three strings `Created`, `Changed`, `Unmodified`;
in particular it never returns `Unknown`, and since every record state in
`categorize_files` is produced by `detect_file_state`, no operation of the
program produces the `Unknown` state. -/
theorem detect_file_state_range (g : Option Str) :
    (detect_file_state g = "Created".data ∨
     detect_file_state g = "Changed".data ∨
     detect_file_state g = "Unmodified".data) ∧
    detect_file_state g ≠ "Unknown".data := by
  cases g with
  | none => exact ⟨Or.inr (Or.inr rfl), by decide⟩
  | some out =>
    dsimp only [detect_file_state]
    by_cases hA : ("A".data.isPrefixOf ((pyStrip out).take 2)) = true
    · rw [if_pos hA]
      exact ⟨Or.inl rfl, by decide⟩
    · rw [if_neg hA]
      by_cases hM : ("M".data.isPrefixOf ((pyStrip out).take 2)) = true
      · rw [if_pos hM]
        exact ⟨Or.inr (Or.inl rfl), by decide⟩
      · rw [if_neg hM]
        exact ⟨Or.inr (Or.inr rfl), by decide⟩

mutual
/-- The file lists yielded by the walk of a tree carry exactly the files of
the tree. -/
theorem osWalk_filesum : ∀ (t : DirTree) (rel : Str),
    ((osWalk t rel).map (fun p => p.2.length)).sum = countFiles t
  | DirTree.mk files subdirs, rel => by
    simp [osWalk, countFiles, osWalkF_filesum subdirs rel]
/-- The file lists yielded by the walk of a forest carry exactly the files of
the forest. -/
theorem osWalkF_filesum : ∀ (f : DirForest) (rel : Str),
    ((osWalkF f rel).map (fun p => p.2.length)).sum = countFilesF f
  | DirForest.nil, _ => by simp [osWalkF, countFilesF]
  | DirForest.cons name sub rest, rel => by
    simp [osWalkF, countFilesF, osWalk_filesum sub (pathJoin rel name),
      osWalkF_filesum rest rel]
end

/-- C5: for every directory tree containing `countFiles tree` regular files,
`categorize_files` produces exactly that many records, one per file,
regardless of nesting depth; no file is filtered out by name or extension
during traversal. -/
theorem categorize_files_count (tree : DirTree) (g : Str → Option Str) :
    (categorize_files tree g).length = countFiles tree := by
  unfold categorize_files
  rw [List.length_flatMap]
  simp only [Function.comp_def, List.length_map]
  exact osWalk_filesum tree []

/-- Closed form of the renderer: the accumulator loop produces the
newline-join of the header row, the separator row, and the mapped data
rows. -/
theorem table_join_eq (file_data : List (Str × Str × Str × Str)) :
    generate_markdown_table file_data =
      pyJoin ['\n'] (headerRow :: separatorRow :: file_data.map mkRow) := by
  show pyJoin ['\n'] (List.foldl (fun acc row => acc ++ [mkRow row])
    [headerRow, separatorRow] file_data) = _
  rw [foldl_append_rows]
  rfl

/-- C4: `generate_markdown_table` produces the newline-join of the header
row, the dash separator row, and one data row per record in input order,
each data row interpolating the four fields verbatim between pipe
separators (`mkRow`), with no escaping of pipe characters. -/
theorem generate_markdown_table_spec (file_data : List (Str × Str × Str × Str)) :
    generate_markdown_table file_data =
      pyJoin ['\n'] (headerRow :: separatorRow :: file_data.map mkRow) :=
  table_join_eq file_data

/-- Joining newline-free parts with a newline yields one fewer newline than
there are parts. -/
theorem count_pyJoin_newline (ls : List Str) (hne : ls ≠ [])
    (hl : ∀ l ∈ ls, l.count '\n' = 0) :
    (pyJoin ['\n'] ls).count '\n' = ls.length - 1 := by
  induction ls with
  | nil => exact absurd rfl hne
  | cons x xs ih =>
    cases xs with
    | nil =>
      simp [pyJoin, hl x (List.mem_cons_self x [])]
    | cons y ys =>
      have hx : x.count '\n' = 0 := hl x (List.mem_cons_self x (y :: ys))
      have hrest : ∀ l ∈ y :: ys, l.count '\n' = 0 :=
        fun l hm => hl l (List.mem_cons_of_mem x hm)
      have ihr := ih (by simp) hrest
      show ((x ++ ['\n'] ++ pyJoin ['\n'] (y :: ys)).count '\n') = _
      rw [List.count_append, List.count_append, hx, ihr]
      simp
      omega

/-- Joining parts that all end in a pipe character with newlines yields a
string ending in a pipe character. -/
theorem getLast_pyJoin_pipe (ls : List Str) (hne : ls ≠ [])
    (hl : ∀ l ∈ ls, l.getLast? = some '|') :
    (pyJoin ['\n'] ls).getLast? = some '|' := by
  induction ls with
  | nil => exact absurd rfl hne
  | cons x xs ih =>
    cases xs with
    | nil => exact hl x (List.mem_cons_self x [])
    | cons y ys =>
      have hrest : ∀ l ∈ y :: ys, l.getLast? = some '|' :=
        fun l hm => hl l (List.mem_cons_of_mem x hm)
      have ihr := ih (by simp) hrest
      show ((x ++ ['\n'] ++ pyJoin ['\n'] (y :: ys)).getLast?) = _
      rw [List.getLast?_append, ihr]
      rfl

/-- Every formatted data row ends with a pipe character. -/
theorem mkRow_getLast (row : Str × Str × Str × Str) :
    (mkRow row).getLast? = some '|' := by
  unfold mkRow
  rw [List.getLast?_append]
  rfl

/-- A formatted data row whose four fields are newline-free contains no
newline. -/
theorem mkRow_count_newline (row : Str × Str × Str × Str)
    (h1 : '\n' ∉ row.1) (h2 : '\n' ∉ row.2.1) (h3 : '\n' ∉ row.2.2.1)
    (h4 : '\n' ∉ row.2.2.2) :
    (mkRow row).count '\n' = 0 := by
  unfold mkRow
  simp only [List.count_append]
  rw [List.count_eq_zero.mpr h1, List.count_eq_zero.mpr h2,
    List.count_eq_zero.mpr h3, List.count_eq_zero.mpr h4]
  decide

/-- Counterexample to C10 as stated: a record whose display-name field
contains a newline character makes the rendered table split into more than
`N + 2` newline-separated lines (here four lines instead of three for a
single record). -/
theorem table_lines_counterexample :
    ¬ ((generate_markdown_table [(['\n'], [], [], [])]).count '\n' + 1 =
        ([(['\n'], [], [], [])] : List (Str × Str × Str × Str)).length + 2) := by
  decide

/-- C10 (amended): for every record sequence of length `N` in which no field
contains a newline character, the string returned by
`generate_markdown_table` consists of exactly `N + 2` newline-separated
lines (its newline count is `N + 1`): header, separator, and one line per
record; and it has no trailing newline (it ends in a pipe character). -/
theorem table_lines (file_data : List (Str × Str × Str × Str))
    (h : ∀ r ∈ file_data,
      '\n' ∉ r.1 ∧ '\n' ∉ r.2.1 ∧ '\n' ∉ r.2.2.1 ∧ '\n' ∉ r.2.2.2) :
    (generate_markdown_table file_data).count '\n' + 1 = file_data.length + 2 ∧
    (generate_markdown_table file_data).getLast? ≠ some '\n' := by
  rw [table_join_eq]
  have hparts : ∀ l ∈ headerRow :: separatorRow :: file_data.map mkRow,
      l.count '\n' = 0 := by
    intro l hm
    simp only [List.mem_cons] at hm
    rcases hm with rfl | rfl | hm
    · decide
    · decide
    · rcases List.mem_map.mp hm with ⟨r, hr, rfl⟩
      obtain ⟨h1, h2, h3, h4⟩ := h r hr
      exact mkRow_count_newline r h1 h2 h3 h4
  have hpipe : ∀ l ∈ headerRow :: separatorRow :: file_data.map mkRow,
      l.getLast? = some '|' := by
    intro l hm
    simp only [List.mem_cons] at hm
    rcases hm with rfl | rfl | hm
    · decide
    · decide
    · rcases List.mem_map.mp hm with ⟨r, _, rfl⟩
      exact mkRow_getLast r
  constructor
  · rw [count_pyJoin_newline _ (by simp) hparts]
    simp
  · rw [getLast_pyJoin_pipe _ (by simp) hpipe]
    decide

/-- Witness for C10 (amended) on one concrete newline-free record: three
lines and a final pipe character. -/
theorem table_lines_witness :
    (generate_markdown_table
        [("Created".data, "Foo".data, "ApexClass".data, "Foo.cls".data)]).count '\n'
      + 1 =
      ([("Created".data, "Foo".data, "ApexClass".data, "Foo.cls".data)] :
        List (Str × Str × Str × Str)).length + 2 ∧
    (generate_markdown_table
        [("Created".data, "Foo".data, "ApexClass".data, "Foo.cls".data)]).getLast?
      ≠ some '\n' :=
  table_lines [("Created".data, "Foo".data, "ApexClass".data, "Foo.cls".data)]
    (by decide)

/-- C6: whenever the program is invoked with zero or with two or more
positional arguments (that is, `sys.argv` has a length other than two,
element zero being the script name), it prints exactly the usage text to
standard output and exits with code 1; no table is printed — in particular
the table header row does not occur anywhere in the output. -/
theorem main_usage (argv : List Str) (isdir : Str → Bool)
    (dirTree : Str → DirTree) (gitStdout : Str → Option Str)
    (h : argv.length ≠ 2) :
    main argv isdir dirTree gitStdout = ⟨1, print_usage⟩ ∧
    ¬ headerRow <:+: print_usage := by
  constructor
  · match argv with
    | [] => rfl
    | [_] => rfl
    | [_, _] => exact absurd rfl h
    | _ :: _ :: _ :: _ => rfl
  · intro hinf
    have hc := hinf.sublist.count_le '|'
    have h5 : headerRow.count '|' = 5 := by decide
    have h0 : print_usage.count '|' = 0 := by decide
    omega

/-- Witness for C6: invoking with zero positional arguments yields the usage
text and exit code 1. -/
theorem main_usage_witness :
    main ["prog".data] (fun _ => false) (fun _ => DirTree.mk [] DirForest.nil)
        (fun _ => none) = ⟨1, print_usage⟩ ∧
    ¬ headerRow <:+: print_usage :=
  main_usage ["prog".data] (fun _ => false)
    (fun _ => DirTree.mk [] DirForest.nil) (fun _ => none) (by decide)

/-- C7: with a single positional argument, the program prints the error
message and exits with code 1 when `os.path.isdir` rejects the argument;
otherwise it exits with code 0 after writing the Markdown table (followed by
the newline of `print`) to standard output. -/
theorem main_dir_check (prog base_dir : Str) (isdir : Str → Bool)
    (dirTree : Str → DirTree) (gitStdout : Str → Option Str) :
    main [prog, base_dir] isdir dirTree gitStdout =
      if isdir base_dir then
        ⟨0, printLine (generate_markdown_table
          (categorize_files (dirTree base_dir) gitStdout))⟩
      else ⟨1, printLine (errorMessage base_dir)⟩ := by
  rfl

end GenerateComponentTable
